import Mathlib

/-!
Verification of the configuration-resolution and REST-client logic of the
lightning-webstore repository (`src/polar_detect.py`, `src/lnd_client.py`),
as a shallow embedding in Lean 4.

JSON values are modelled by `JVal`; Python exceptions that can escape the
embedded functions are modelled by `Except PyErr`.  Filesystem and network
effects are passed in explicitly (a `DescriptorFile` for
`~/.polar/networks/networks.json`, a lookup function for the macaroon file,
an abstract transport for HTTP).
-/

namespace Webstore

/-- A parsed JSON document, as produced by Python's `json.load`.
Numbers are modelled as integers (the descriptor schema only uses
integer ids and ports). -/
inductive JVal where
  | jnull
  | jbool (b : Bool)
  | jnum (n : Int)
  | jstr (s : String)
  | jarr (elems : List JVal)
  | jobj (fields : List (String × JVal))

/-- Python `str.upper()` (ASCII; the descriptor comparisons this
repository makes only involve ASCII names). -/
def strUpper (s : String) : String := ⟨s.data.map Char.toUpper⟩

/-- Python `str.lower()` (ASCII). -/
def strLower (s : String) : String := ⟨s.data.map Char.toLower⟩

/-- Python exceptions that the embedded code can raise. -/
inductive PyErr where
  | attrError   -- AttributeError (e.g. `.get` on a non-dict, `.upper` on a non-str)
  | typeError   -- TypeError (e.g. `int(None)`, iterating a number, joining a non-str)
  | valueError  -- ValueError (e.g. `int("x")`)
deriving Repr, DecidableEq

namespace JVal

/-- Lookup in a Python dict built by `json.load`: on duplicate keys the
last binding wins (as in CPython's `json`). -/
def lookupLast (fields : List (String × JVal)) (k : String) : Option JVal :=
  fields.foldl (fun acc p => if p.1 = k then some p.2 else acc) none

/-- Python truthiness of a JSON value (`if not x: ...`). -/
def truthy : JVal → Bool
  | jnull => false
  | jbool b => b
  | jnum n => n != 0
  | jstr s => s != ""
  | jarr xs => !xs.isEmpty
  | jobj fs => !fs.isEmpty

/-- `x.get(k, dflt)`: raises AttributeError unless `x` is a dict. -/
def pyGet (x : JVal) (k : String) (dflt : JVal) : Except PyErr JVal :=
  match x with
  | jobj fs => .ok ((lookupLast fs k).getD dflt)
  | _ => .error .attrError

/-- Python `int(x)` on a JSON value. -/
def pyInt : JVal → Except PyErr Int
  | jnum n => .ok n
  | jbool b => .ok (if b then 1 else 0)
  | jstr s =>
    match s.trim.toInt? with
    | some n => .ok n
    | none => .error .valueError
  | _ => .error .typeError

/-- Keys of a dict in insertion order: first occurrence keeps its
position, duplicates are dropped. -/
def dictKeys (fields : List (String × JVal)) : List String :=
  fields.foldl (fun acc p => if p.1 ∈ acc then acc else acc ++ [p.1]) []

/-- Python iteration `for x in v`: lists yield their elements, strings
their characters, dicts their keys; other values raise TypeError. -/
def pyIterate : JVal → Except PyErr (List JVal)
  | jarr xs => .ok xs
  | jstr s => .ok (s.toList.map (fun c => jstr (String.singleton c)))
  | jobj fs => .ok ((dictKeys fs).map jstr)
  | _ => .error .typeError

mutual

/-- Python `repr` of a JSON value (string escaping inside containers is
not modelled; the descriptor schema never needs it). -/
def pyRepr : JVal → String
  | jnull => "None"
  | jbool b => if b then "True" else "False"
  | jnum n => toString n
  | jstr s => "'" ++ s ++ "'"
  | jarr xs => "[" ++ pyReprList xs ++ "]"
  | jobj fs => "\x7b" ++ pyReprFields fs ++ "\x7d"

def pyReprList : List JVal → String
  | [] => ""
  | [x] => pyRepr x
  | x :: xs => pyRepr x ++ ", " ++ pyReprList xs

def pyReprFields : List (String × JVal) → String
  | [] => ""
  | [(k, v)] => "'" ++ k ++ "': " ++ pyRepr v
  | (k, v) :: fs => "'" ++ k ++ "': " ++ pyRepr v ++ ", " ++ pyReprFields fs

end

/-- Python `str(x)` (used by f-string interpolation). -/
def pyStr : JVal → String
  | jstr s => s
  | v => pyRepr v

/-- `x.upper()` (Python raises AttributeError on a non-string). -/
def pyUpper : JVal → Except PyErr String
  | jstr s => .ok (strUpper s)
  | _ => .error .attrError

/-- `x.lower()` (Python raises AttributeError on a non-string). -/
def pyLower : JVal → Except PyErr String
  | jstr s => .ok (strLower s)
  | _ => .error .attrError

/-- The value must be a `str` to be passed to `os.path.join`. -/
def asPathStr : JVal → Except PyErr String
  | jstr s => .ok s
  | _ => .error .typeError

end JVal

/-- `os.path.expanduser`: expand a leading `~` to the user's home
directory (`~` alone or `~/...`; the `~user` form, which looks up a
different user's home, is left unexpanded in this model — the
repository only ever builds `~/`-prefixed paths itself). -/
def expanduser (home p : String) : String :=
  if p = "~" then home
  else if p.data.take 2 = ['~', '/'] then home ++ String.mk (p.data.drop 1)
  else p

/-- `os.path.join` of two components (POSIX): an absolute second
component discards the first; otherwise a `/` separator is inserted
unless the first is empty or already ends in `/`. -/
def pyJoin2 (a b : String) : String :=
  if b.data.head? = some '/' then b
  else if a.data = [] then b
  else if a.data.getLast? = some '/' then a ++ b
  else a ++ "/" ++ b

/-- `os.path.join` folded over several components. -/
def pyJoin (a : String) (rest : List String) : String :=
  rest.foldl pyJoin2 a

/-! ## `polar_detect.py` -/

/-- The observable states of the descriptor file
`~/.polar/networks/networks.json`: missing (`os.path.exists` is false),
unreadable (`IOError` on open/read), present but not valid JSON
(`json.JSONDecodeError`), or successfully parsed to a JSON value. -/
inductive DescriptorFile where
  | absent
  | unreadable
  | unparsable
  | parsed (data : JVal)

/-- The dict returned by `find_polar_node` on success. -/
structure PolarResult where
  name : String
  lnd_dir : String
  rest_host : String
  rest_port : JVal
  network_name : JVal

/-- `sort_key(net)` from `find_polar_node`:
`(1 if net.get("status","") == "Started" else 0, int(net.get("id", 0)))`. -/
def sort_key (net : JVal) : Except PyErr (Int × Int) := do
  let status ← net.pyGet "status" (.jstr "")
  let is_running : Int :=
    match status with
    | .jstr s => if s = "Started" then 1 else 0
    | _ => 0
  let net_id ← JVal.pyInt (← net.pyGet "id" (.jnum 0))
  return (is_running, net_id)

/-- Lexicographic `≤` on Python's `(is_running, net_id)` key tuples. -/
def keyLe (a b : Int × Int) : Bool :=
  a.1 < b.1 || (a.1 == b.1 && a.2 ≤ b.2)

/-- Insert an element into a list already sorted descending by key,
placing it in front of the first element whose key is `≤` its own, so
that among equal keys the earlier element stays first (Python's
`sorted` is stable, also with `reverse=True`). -/
def insertDesc (x : JVal × (Int × Int)) :
    List (JVal × (Int × Int)) → List (JVal × (Int × Int))
  | [] => [x]
  | y :: ys => if keyLe y.2 x.2 then x :: y :: ys else y :: insertDesc x ys

/-- `sorted(nets, key=sort_key, reverse=True)` on key-decorated
elements: stable, descending by key. -/
def sortDesc : List (JVal × (Int × Int)) → List (JVal × (Int × Int))
  | [] => []
  | x :: xs => insertDesc x (sortDesc xs)

/-- The key-decoration step of `sorted(networks, key=sort_key, ...)`:
CPython computes `sort_key` once per element, in list order, before
comparing; the first raising element's exception propagates. -/
def decorate : List JVal → Except PyErr (List (JVal × (Int × Int)))
  | [] => .ok []
  | n :: rest => do
    let k ← sort_key n
    let ks ← decorate rest
    .ok ((n, k) :: ks)

/-- The inner `for node in lnd_nodes` loop of `find_polar_node`
(source lines 63-97), for one network. -/
def scanNodes (home node_name : String) (network : JVal) :
    List JVal → Except PyErr (Option PolarResult)
  | [] => .ok none
  | node :: rest => do
    let impl ← node.pyGet "implementation" (.jstr "")
    let name ← node.pyGet "name" (.jstr "")
    let implU ← impl.pyUpper
    if implU ≠ "LND" then
      scanNodes home node_name network rest
    else do
      let nameL ← name.pyLower
      if nameL ≠ strLower node_name then
        scanNodes home node_name network rest
      else do
        let pathVal ← network.pyGet "path" (.jstr "")
        let network_path ←
          if pathVal.truthy then pathVal.asPathStr
          else do
            let net_id ← network.pyGet "id" (.jstr "")
            pure (expanduser home ("~/.polar/networks/" ++ net_id.pyStr))
        let nameS ← name.asPathStr
        let lnd_dir := pyJoin network_path ["volumes", "lnd", nameS]
        let ports ← node.pyGet "ports" (.jobj [])
        let rest_port ← ports.pyGet "rest" (.jnum 8082)
        let rest_host := "https://127.0.0.1:" ++ rest_port.pyStr
        let network_name ← network.pyGet "name" (.jstr "unknown")
        return some
          { name := nameS, lnd_dir := lnd_dir, rest_host := rest_host
            rest_port := rest_port, network_name := network_name }

/-- The outer `for network in networks_sorted` loop of
`find_polar_node` (source lines 59-99). -/
def scanNetworks (home node_name : String) :
    List JVal → Except PyErr (Option PolarResult)
  | [] => .ok none
  | network :: rest => do
    let nodes ← network.pyGet "nodes" (.jobj [])
    let lnd_nodes ← nodes.pyGet "lightning" (.jarr [])
    let items ← lnd_nodes.pyIterate
    match ← scanNodes home node_name network items with
    | some r => .ok (some r)
    | none => scanNetworks home node_name rest

/-- `find_polar_node(node_name)` from `polar_detect.py`.  The state of
the descriptor file is an explicit argument; `home` is the user's home
directory used by `os.path.expanduser`. -/
def find_polar_node (home : String) (file : DescriptorFile)
    (node_name : String) : Except PyErr (Option PolarResult) :=
  match file with
  | .absent => .ok none
  | .unreadable => .ok none
  | .unparsable => .ok none
  | .parsed data => do
    let networks ← data.pyGet "networks" (.jarr [])
    if !networks.truthy then .ok none
    else do
      let items ← networks.pyIterate
      let keyed ← decorate items
      scanNetworks home node_name ((sortDesc keyed).map Prod.fst)

/-- Truthiness of `os.environ.get(...)`: `None` and the empty string
are falsy. -/
def envTruthy : Option String → Bool
  | none => false
  | some s => s != ""

/-- `auto_detect(node_name)` from `polar_detect.py`.  `env_lnd_dir` and
`env_rest_host` are `os.environ.get("LND_DIR")` and
`os.environ.get("REST_HOST")`. -/
def auto_detect (home : String) (env_lnd_dir env_rest_host : Option String)
    (file : DescriptorFile) (node_name : String) :
    Except PyErr (Option String × Option String) :=
  if envTruthy env_lnd_dir && envTruthy env_rest_host then
    .ok (some (expanduser home (env_lnd_dir.getD "")), env_rest_host)
  else do
    match ← find_polar_node home file node_name with
    | some polar => .ok (some polar.lnd_dir, some polar.rest_host)
    | none => .ok (none, none)

/-! ## `lnd_client.py` -/

namespace JVal

mutual

/-- `json.dumps` of a JSON value (string escaping is not modelled;
the request bodies this client sends never need it). -/
def dumps : JVal → String
  | jnull => "null"
  | jbool b => if b then "true" else "false"
  | jnum n => toString n
  | jstr s => "\"" ++ s ++ "\""
  | jarr xs => "[" ++ dumpsList xs ++ "]"
  | jobj fs => "\x7b" ++ dumpsFields fs ++ "\x7d"

def dumpsList : List JVal → String
  | [] => ""
  | [x] => dumps x
  | x :: xs => dumps x ++ ", " ++ dumpsList xs

def dumpsFields : List (String × JVal) → String
  | [] => ""
  | [(k, v)] => "\"" ++ k ++ "\": " ++ dumps v
  | (k, v) :: fs => "\"" ++ k ++ "\": " ++ dumps v ++ ", " ++ dumpsFields fs

end

end JVal

/-- One lowercase hex digit. -/
def hexDigit (n : Nat) : Char :=
  if n < 10 then Char.ofNat (48 + n) else Char.ofNat (87 + n)

/-- `bytes.hex()`: two lowercase hex digits per byte. -/
def bytesHex (bs : List Nat) : String :=
  String.join (bs.map (fun b =>
    String.singleton (hexDigit (b / 16 % 16)) ++ String.singleton (hexDigit (b % 16))))

/-- Module-level defaults of `lnd_client.py` (lines 24-27):
`auto_detect("bob")` with falsy components replaced by the hardcoded
fallbacks.  Raises whatever `auto_detect` raises. -/
def moduleConfig (home : String) (env_lnd_dir env_rest_host : Option String)
    (file : DescriptorFile) : Except PyErr (String × String) := do
  let (d, h) ← auto_detect home env_lnd_dir env_rest_host file "bob"
  let lndDir := if envTruthy d then d.getD "" else expanduser home "~/bootcamp-code/day3/bob"
  let restHost := if envTruthy h then h.getD "" else "https://localhost:8082"
  return (lndDir, restHost)

/-- The state of an `LNDClient` after `__init__`. -/
structure LNDClient where
  lnd_dir : String
  rest_host : String
  macaroon : Option String
  tls_cert : String

/-- The macaroon path used by `LNDClient.__init__`:
`os.path.join(lnd_dir, "data", "chain", "bitcoin", "regtest", "admin.macaroon")`. -/
def macaroonPath (dir : String) : String :=
  pyJoin dir ["data", "chain", "bitcoin", "regtest", "admin.macaroon"]

/-- `LNDClient.__init__(lnd_dir, rest_host)`.  `readFile` models the
filesystem: `none` is `FileNotFoundError` (caught: the macaroon stays
unset), `some bs` the file's raw bytes.  `default_dir`/`default_host`
are the module-level `LND_DIR`/`REST_HOST`. -/
def LNDClient.init (readFile : String → Option (List Nat))
    (default_dir default_host : String)
    (lnd_dir rest_host : Option String) : LNDClient :=
  let dir := if envTruthy lnd_dir then lnd_dir.getD "" else default_dir
  let host := if envTruthy rest_host then rest_host.getD "" else default_host
  { lnd_dir := dir
    rest_host := host
    macaroon := (readFile (macaroonPath dir)).map bytesHex
    tls_cert := pyJoin dir ["tls.cert"] }

/-- An HTTP response as the `requests` library presents it:
status code, reason phrase, raw body, and `resp.json()`'s result
(`none` when the body is not valid JSON). -/
structure HttpResp where
  status : Nat
  reason : String
  body : String
  jsonBody : Option JVal

/-- The exceptions `LNDClient._request` can raise. -/
inductive ReqError where
  | connectionError (msg : String)
  | httpError (status : Nat) (reason : String) (url : String) (body : String)
  | valueError (msg : String)
  | jsonDecodeError

/-- The `str()` of a request error; for `requests.HTTPError` this is the
message `raise_for_status` builds from the status, reason and URL. -/
def ReqError.message : ReqError → String
  | .connectionError m => m
  | .httpError status reason url _ =>
    toString status ++
      ((if status < 500 then " Client Error: " else " Server Error: ") ++
       (reason ++ (" for url: " ++ url)))
  | .valueError m => m
  | .jsonDecodeError => "Expecting value"

/-- `resp.raise_for_status()`: raise `requests.HTTPError` exactly for
status codes in 400..599, carrying the response (body included). -/
def raise_for_status (resp : HttpResp) (url : String) : Except ReqError Unit :=
  if 400 ≤ resp.status ∧ resp.status < 600 then
    .error (.httpError resp.status resp.reason url resp.body)
  else .ok ()

/-- An abstract HTTP transport: method, url, headers, optional body
to a response.  `_request` consults it only after the macaroon check. -/
def HttpTransport := String → String → List (String × String) → Option String → HttpResp

/-- `LNDClient._request(method, endpoint, data)` from `lnd_client.py`. -/
def LNDClient.request (c : LNDClient) (http : HttpTransport)
    (method endpoint : String) (data : Option JVal) : Except ReqError JVal := do
  if !(envTruthy c.macaroon) then
    .error (.connectionError
      ("LND not found at " ++ c.lnd_dir ++ ". " ++
       "Make sure your LND node is set up. " ++
       "If using Polar, make sure it's running with a node named 'bob'."))
  else do
    let url := c.rest_host ++ endpoint
    let headers := [("Grpc-Metadata-macaroon", c.macaroon.getD "")]
    let resp ←
      if method = "GET" then pure (http "GET" url headers none)
      else if method = "POST" then
        pure (http "POST" url (headers ++ [("Content-Type", "application/json")])
          (some (JVal.dumps (data.getD .jnull))))
      else if method = "DELETE" then pure (http "DELETE" url headers none)
      else .error (.valueError ("Unsupported method: " ++ method))
    raise_for_status resp url
    match resp.jsonBody with
    | some j => .ok j
    | none => .error .jsonDecodeError

/-- `get_info`: `GET /v1/getinfo`. -/
def LNDClient.get_info (c : LNDClient) (http : HttpTransport) : Except ReqError JVal :=
  c.request http "GET" "/v1/getinfo" none

/-- `channel_balance`: `GET /v1/balance/channels`. -/
def LNDClient.channel_balance (c : LNDClient) (http : HttpTransport) : Except ReqError JVal :=
  c.request http "GET" "/v1/balance/channels" none

/-- `wallet_balance`: `GET /v1/balance/blockchain`. -/
def LNDClient.wallet_balance (c : LNDClient) (http : HttpTransport) : Except ReqError JVal :=
  c.request http "GET" "/v1/balance/blockchain" none

/-- `add_invoice(amount, memo)`: `POST /v1/invoices` with
`{"value": str(amount), "memo": memo}`. -/
def LNDClient.add_invoice (c : LNDClient) (http : HttpTransport)
    (amount : Int) (memo : String) : Except ReqError JVal :=
  c.request http "POST" "/v1/invoices"
    (some (.jobj [("value", .jstr (toString amount)), ("memo", .jstr memo)]))

/-- `lookup_invoice(r_hash_str)`: `GET /v1/invoice/{r_hash_str}`. -/
def LNDClient.lookup_invoice (c : LNDClient) (http : HttpTransport)
    (r_hash_str : String) : Except ReqError JVal :=
  c.request http "GET" ("/v1/invoice/" ++ r_hash_str) none

/-- `list_invoices`: `GET /v1/invoices`. -/
def LNDClient.list_invoices (c : LNDClient) (http : HttpTransport) : Except ReqError JVal :=
  c.request http "GET" "/v1/invoices" none

/-- `list_payments`: `GET /v1/payments`. -/
def LNDClient.list_payments (c : LNDClient) (http : HttpTransport) : Except ReqError JVal :=
  c.request http "GET" "/v1/payments" none

/-- `decode_pay_req(pay_req)`: `GET /v1/payreq/{pay_req}`. -/
def LNDClient.decode_pay_req (c : LNDClient) (http : HttpTransport)
    (pay_req : String) : Except ReqError JVal :=
  c.request http "GET" ("/v1/payreq/" ++ pay_req) none

/-- `list_channels`: `GET /v1/channels`. -/
def LNDClient.list_channels (c : LNDClient) (http : HttpTransport) : Except ReqError JVal :=
  c.request http "GET" "/v1/channels" none

/-- `list_peers`: `GET /v1/peers`. -/
def LNDClient.list_peers (c : LNDClient) (http : HttpTransport) : Except ReqError JVal :=
  c.request http "GET" "/v1/peers" none

/-! ## Schema-conforming descriptors and the spec-side scan order

The spec (§3, §4.1) describes node matching and selection order in
terms of a well-formed descriptor following the schema of §6.  The
predicates below delimit that schema; `firstMatch` is the spec's
"first entry matching the invariant, networks in selection order,
nodes in file order", stated independently of the code's control flow
so that `find_polar_node` can be compared against it. -/

/-- Field lookup on a JSON object (`none` on other shapes). -/
def getField (x : JVal) (k : String) : Option JVal :=
  match x with
  | .jobj fs => JVal.lookupLast fs k
  | _ => none

/-- A field that must be a string when present. -/
def strOrAbsent : Option JVal → Bool
  | none => true
  | some (.jstr _) => true
  | _ => false

/-- A schema-conforming lightning-node entry: a JSON object whose
`implementation` and `name` are strings when present and whose `ports`
is an object when present. -/
def WFNode (node : JVal) : Bool :=
  match node with
  | .jobj fs =>
    strOrAbsent (JVal.lookupLast fs "implementation") &&
    strOrAbsent (JVal.lookupLast fs "name") &&
    (match JVal.lookupLast fs "ports" with
     | none => true
     | some (.jobj _) => true
     | _ => false)
  | _ => false

/-- A schema-conforming network entry: a JSON object whose `id` is a
number when present, whose `path` is a string when present, and whose
`nodes.lightning` is a list of well-formed node entries when present. -/
def WFNet (net : JVal) : Bool :=
  match net with
  | .jobj fs =>
    (match JVal.lookupLast fs "id" with
     | none => true
     | some (.jnum _) => true
     | _ => false) &&
    strOrAbsent (JVal.lookupLast fs "path") &&
    (match JVal.lookupLast fs "nodes" with
     | none => true
     | some (.jobj nfs) =>
       (match JVal.lookupLast nfs "lightning" with
        | none => true
        | some (.jarr nodes) => nodes.all WFNode
        | _ => false)
     | _ => false)
  | _ => false

/-- A schema-conforming descriptor: a JSON object whose `networks` is a
list of well-formed network entries when present. -/
def WFData (d : JVal) : Bool :=
  match d with
  | .jobj fs =>
    (match JVal.lookupLast fs "networks" with
     | none => true
     | some (.jarr nets) => nets.all WFNet
     | _ => false)
  | _ => false

/-- The string content of a JSON value (schema-conforming fields are
strings, so this is exact where it is used). -/
def strOf : JVal → String
  | .jstr s => s
  | _ => ""

/-- The sort key of a network, as a total function (agrees with
`sort_key` on schema-conforming networks). -/
def keyOf (net : JVal) : Int × Int :=
  ((match getField net "status" with
    | some (.jstr s) => if s = "Started" then 1 else 0
    | _ => 0),
   (match getField net "id" with
    | some (.jnum n) => n
    | _ => 0))

/-- The descriptor's network list. -/
def networksOf (d : JVal) : List JVal :=
  match getField d "networks" with
  | some (.jarr nets) => nets
  | _ => []

/-- The networks in selection order: status `"Started"` first, then by
identifier descending, ties in file order. -/
def sortedNetworks (d : JVal) : List JVal :=
  (sortDesc ((networksOf d).map (fun n => (n, keyOf n)))).map Prod.fst

/-- A network's lightning-node entries in file order. -/
def lightningOf (net : JVal) : List JVal :=
  match getField net "nodes" with
  | some (.jobj nfs) =>
    (match JVal.lookupLast nfs "lightning" with
     | some (.jarr nodes) => nodes
     | _ => [])
  | _ => []

/-- The matching invariant of spec §3: implementation equals `"LND"`
case-insensitively and name equals the requested name
case-insensitively. -/
def isMatch (node_name : String) (node : JVal) : Bool :=
  strUpper (strOf ((getField node "implementation").getD (.jstr ""))) == "LND" &&
  strLower (strOf ((getField node "name").getD (.jstr ""))) == strLower node_name

/-- All (network, node) candidates in scan order: networks in selection
order, nodes in file order within each network. -/
def candidates (d : JVal) : List (JVal × JVal) :=
  (sortedNetworks d).flatMap (fun net => (lightningOf net).map (fun nd => (net, nd)))

/-- The result `find_polar_node` builds for a matched (network, node)
pair (source lines 72-97), as a total function. -/
def buildResult (home : String) (net node : JVal) : PolarResult :=
  let name := strOf ((getField node "name").getD (.jstr ""))
  let pathVal := (getField net "path").getD (.jstr "")
  let network_path :=
    if pathVal.truthy then strOf pathVal
    else expanduser home
      ("~/.polar/networks/" ++ ((getField net "id").getD (.jstr "")).pyStr)
  let rest_port := (getField ((getField node "ports").getD (.jobj [])) "rest").getD (.jnum 8082)
  { name := name
    lnd_dir := pyJoin network_path ["volumes", "lnd", name]
    rest_host := "https://127.0.0.1:" ++ rest_port.pyStr
    rest_port := rest_port
    network_name := (getField net "name").getD (.jstr "unknown") }

/-- The spec-side resolution: the first candidate in scan order that
satisfies the matching invariant, mapped to its result. -/
def specResolve (home : String) (d : JVal) (node_name : String) : Option PolarResult :=
  ((candidates d).find? (fun p => isMatch node_name p.2)).map
    (fun p => buildResult home p.1 p.2)

/-- A descriptor-file state whose processing never raises: any
non-parsed state, or a parsed schema-conforming descriptor. -/
def fileWF : DescriptorFile → Bool
  | .parsed d => WFData d
  | _ => true

/-- A lightning-node entry of the descriptor schema, for building test
descriptors: implementation, name, and an optional `ports.rest`. -/
def node1 (impl nm : String) (port? : Option Int) : JVal :=
  .jobj ([("implementation", .jstr impl), ("name", .jstr nm)] ++
    (match port? with
     | some q => [("ports", JVal.jobj [("rest", JVal.jnum q)])]
     | none => []))

/-- A network entry of the descriptor schema, for building test
descriptors: id, display name, status, optional path, and its
lightning nodes. -/
def net1 (i : Int) (status netname : String) (path? : Option String)
    (nodes : List JVal) : JVal :=
  .jobj ([("id", JVal.jnum i), ("name", .jstr netname), ("status", .jstr status)] ++
    (match path? with
     | some p => [("path", JVal.jstr p)]
     | none => []) ++
    [("nodes", JVal.jobj [("lightning", JVal.jarr nodes)])])

/-- A descriptor with the given networks. -/
def descriptor (nets : List JVal) : JVal :=
  .jobj [("networks", .jarr nets)]

/-- Test fixture: an LND node named `bob` with the given REST port. -/
def lndBob (port : Int) : JVal := node1 "LND" "bob" (some port)

/-- Test fixture: a network labelled `nA` at path `/a` whose single
lightning node is `bob` on port 8081. -/
def netA (i : Int) (status : String) : JVal :=
  net1 i status "nA" (some "/a") [lndBob 8081]

/-- Test fixture: a network labelled `nB` at path `/b` whose single
lightning node is `bob` on port 8091. -/
def netB (i : Int) (status : String) : JVal :=
  net1 i status "nB" (some "/b") [lndBob 8091]

/-- The result of resolving `bob` inside `netA`. -/
def resultA : PolarResult :=
  { name := "bob", lnd_dir := "/a/volumes/lnd/bob",
    rest_host := "https://127.0.0.1:8081", rest_port := .jnum 8081,
    network_name := .jstr "nA" }

/-! ## General lemmas -/

@[simp] theorem except_bind_ok {ε α β : Type} (a : α) (f : α → Except ε β) :
    (Except.ok a : Except ε α) >>= f = f a := rfl

@[simp] theorem except_bind_error {ε α β : Type} (e : ε) (f : α → Except ε β) :
    (Except.error e : Except ε α) >>= f = (.error e : Except ε β) := rfl

@[simp] theorem except_pure_eq {ε α : Type} (a : α) :
    (pure a : Except ε α) = .ok a := rfl

@[simp] theorem lookupLast_nil (k : String) : JVal.lookupLast [] k = none := rfl

/-- On a schema-conforming network, `sort_key` succeeds and computes
the spec-side key. -/
theorem sort_key_wf (net : JVal) (h : WFNet net = true) : sort_key net = .ok (keyOf net) := by
  cases net
  case jobj fs =>
    cases hi : JVal.lookupLast fs "id" with
    | none =>
      cases hs : JVal.lookupLast fs "status" with
      | none => simp [sort_key, keyOf, JVal.pyGet, getField, hi, hs, JVal.pyInt]
      | some v =>
        cases v <;> simp [sort_key, keyOf, JVal.pyGet, getField, hi, hs, JVal.pyInt]
    | some w =>
      cases w
      case jnum n =>
        cases hs : JVal.lookupLast fs "status" with
        | none => simp [sort_key, keyOf, JVal.pyGet, getField, hi, hs, JVal.pyInt]
        | some v =>
          cases v <;> simp [sort_key, keyOf, JVal.pyGet, getField, hi, hs, JVal.pyInt]
      all_goals simp [WFNet, strOrAbsent, hi] at h
  all_goals simp [WFNet] at h

/-- On schema-conforming networks, key decoration succeeds and equals
the spec-side decoration. -/
theorem decorate_wf (nets : List JVal) (h : ∀ n ∈ nets, WFNet n = true) :
    decorate nets = .ok (nets.map (fun n => (n, keyOf n))) := by
  induction nets with
  | nil => rfl
  | cons a l ih =>
    have ha := h a (List.mem_cons_self _ _)
    have hl := ih (fun n hm => h n (List.mem_cons_of_mem _ hm))
    simp [decorate, sort_key_wf a ha, hl]

theorem mem_insertDesc {x y : JVal × (Int × Int)} {l : List (JVal × (Int × Int))}
    (h : y ∈ insertDesc x l) : y = x ∨ y ∈ l := by
  induction l with
  | nil =>
    simp only [insertDesc, List.mem_singleton] at h
    exact .inl h
  | cons a l ih =>
    simp only [insertDesc] at h
    split at h
    · rcases List.mem_cons.1 h with h | h
      · exact .inl h
      · exact .inr h
    · rcases List.mem_cons.1 h with h | h
      · exact .inr (by simp [h])
      · rcases ih h with h | h
        · exact .inl h
        · exact .inr (by simp [h])

theorem mem_sortDesc {y : JVal × (Int × Int)} {l : List (JVal × (Int × Int))}
    (h : y ∈ sortDesc l) : y ∈ l := by
  induction l generalizing y with
  | nil => simp [sortDesc] at h
  | cons a l ih =>
    simp only [sortDesc] at h
    rcases mem_insertDesc h with h | h
    · simp [h]
    · exact List.mem_cons_of_mem _ (ih h)

/-- On a schema-conforming network with schema-conforming node entries,
the inner node loop returns the first matching entry's result. -/
theorem scanNodes_wf (home name : String) (net : JVal) (hnet : WFNet net = true)
    (l : List JVal) (h : ∀ nd ∈ l, WFNode nd = true) :
    scanNodes home name net l = .ok ((l.find? (isMatch name)).map (buildResult home net)) := by
  cases net
  case jobj gfs =>
    have hpath : ∃ p : String, (JVal.lookupLast gfs "path").getD (.jstr "") = .jstr p := by
      cases hp : JVal.lookupLast gfs "path"
      · exact ⟨"", rfl⟩
      case some w =>
        cases w
        case jstr s => exact ⟨s, rfl⟩
        all_goals simp [WFNet, strOrAbsent, hp] at hnet
    obtain ⟨ppath, hpath⟩ := hpath
    induction l with
    | nil => rfl
    | cons node rest ih =>
      have hn : WFNode node = true := h node (List.mem_cons_self _ _)
      have IH := ih (fun nd hm => h nd (List.mem_cons_of_mem _ hm))
      cases node
      case jobj nfs =>
        have himpl : ∃ s : String,
            (JVal.lookupLast nfs "implementation").getD (.jstr "") = .jstr s := by
          cases him : JVal.lookupLast nfs "implementation"
          · exact ⟨"", rfl⟩
          case some w =>
            cases w
            case jstr s => exact ⟨s, rfl⟩
            all_goals simp [WFNode, strOrAbsent, him] at hn
        obtain ⟨si, himpl⟩ := himpl
        have hnm : ∃ t : String,
            (JVal.lookupLast nfs "name").getD (.jstr "") = .jstr t := by
          cases hw : JVal.lookupLast nfs "name"
          · exact ⟨"", rfl⟩
          case some w =>
            cases w
            case jstr s => exact ⟨s, rfl⟩
            all_goals simp [WFNode, strOrAbsent, hw] at hn
        obtain ⟨tname, hnm⟩ := hnm
        by_cases hLND : strUpper si = "LND"
        · by_cases hEq : strLower tname = strLower name
          · have hm : isMatch name (.jobj nfs) = true := by
              simp [isMatch, getField, himpl, hnm, strOf, hLND, hEq]
            have hports : ∃ pfs, (JVal.lookupLast nfs "ports").getD (.jobj []) = .jobj pfs := by
              cases hw : JVal.lookupLast nfs "ports"
              · exact ⟨[], rfl⟩
              case some w =>
                cases w
                case jobj pfs => exact ⟨pfs, rfl⟩
                all_goals simp [WFNode, strOrAbsent, hw] at hn
            obtain ⟨pfs, hports⟩ := hports
            rw [List.find?_cons_of_pos _ hm]
            by_cases hp0 : ppath = ""
            · simp [scanNodes, JVal.pyGet, himpl, hnm, JVal.pyUpper, JVal.pyLower, hLND, hEq,
                hpath, hports, hp0, JVal.truthy, JVal.asPathStr, buildResult, getField, strOf]
            · simp [scanNodes, JVal.pyGet, himpl, hnm, JVal.pyUpper, JVal.pyLower, hLND, hEq,
                hpath, hports, hp0, JVal.truthy, JVal.asPathStr, buildResult, getField, strOf]
          · have hm : isMatch name (.jobj nfs) = false := by
              simp [isMatch, getField, himpl, hnm, strOf, hLND, hEq]
            rw [List.find?_cons_of_neg _ (by simp [hm])]
            simpa [scanNodes, JVal.pyGet, himpl, hnm, JVal.pyUpper, JVal.pyLower, hLND, hEq]
              using IH
        · have hm : isMatch name (.jobj nfs) = false := by
            simp [isMatch, getField, himpl, strOf, hLND]
          rw [List.find?_cons_of_neg _ (by simp [hm])]
          simpa [scanNodes, JVal.pyGet, himpl, hnm, JVal.pyUpper, JVal.pyLower, hLND]
            using IH
      all_goals simp [WFNode] at hn
  all_goals simp [WFNet] at hnet

/-- On schema-conforming networks, the outer loop returns the first
matching (network, node) candidate's result, scanning nodes in file
order within each network. -/
theorem scanNetworks_wf (home name : String) (nets : List JVal)
    (h : ∀ n ∈ nets, WFNet n = true) :
    scanNetworks home name nets =
      .ok (((nets.flatMap (fun net => (lightningOf net).map (fun nd => (net, nd)))).find?
            (fun p => isMatch name p.2)).map (fun p => buildResult home p.1 p.2)) := by
  induction nets with
  | nil => rfl
  | cons net rest ih =>
    have hn := h net (List.mem_cons_self _ _)
    have IH := ih (fun n hm => h n (List.mem_cons_of_mem _ hm))
    cases net
    case jobj gfs =>
      cases hw : JVal.lookupLast gfs "nodes"
      case none =>
        simp [scanNetworks, JVal.pyGet, hw, JVal.pyIterate, scanNodes, lightningOf,
          getField, Function.comp_def, IH]
      case some w =>
        cases w
        case jobj nfs =>
          cases hw2 : JVal.lookupLast nfs "lightning"
          case none =>
            simp [scanNetworks, JVal.pyGet, hw, hw2, JVal.pyIterate, scanNodes,
              lightningOf, getField, Function.comp_def, IH]
          case some v =>
            cases v
            case jarr lst =>
              have hwfl : ∀ nd ∈ lst, WFNode nd = true := by
                have := hn
                simp only [WFNet, hw, hw2, Bool.and_eq_true, List.all_eq_true] at this
                tauto
              have hs := scanNodes_wf home name (.jobj gfs) hn lst hwfl
              cases hfind : lst.find? (isMatch name) with
              | some nd =>
                simp [scanNetworks, JVal.pyGet, hw, hw2, JVal.pyIterate, hs, hfind,
                  lightningOf, getField, Function.comp_def]
              | none =>
                simp [scanNetworks, JVal.pyGet, hw, hw2, JVal.pyIterate, hs, hfind,
                  lightningOf, getField, Function.comp_def, IH]
            all_goals simp [WFNet, strOrAbsent, hw, hw2] at hn
        all_goals simp [WFNet, strOrAbsent, hw] at hn
    all_goals simp [WFNet] at hn

/-- Refinement: on a schema-conforming descriptor, `find_polar_node`
returns exactly the spec-side resolution (the first candidate in scan
order satisfying the matching invariant). -/
theorem find_polar_node_wf (home name : String) (d : JVal) (h : WFData d = true) :
    find_polar_node home (.parsed d) name = .ok (specResolve home d name) := by
  cases d
  case jobj fs =>
    cases hw : JVal.lookupLast fs "networks"
    case none =>
      simp [find_polar_node, JVal.pyGet, hw, JVal.truthy, specResolve, candidates,
        sortedNetworks, networksOf, getField, sortDesc]
    case some w =>
      cases w
      case jarr nets =>
        have hwf : ∀ n ∈ nets, WFNet n = true := by
          have := h
          simp only [WFData, hw, List.all_eq_true] at this
          exact this
        rcases eq_or_ne nets [] with rfl | hne
        · simp [find_polar_node, JVal.pyGet, hw, JVal.truthy, specResolve, candidates,
            sortedNetworks, networksOf, getField, sortDesc]
        · have hsorted : ∀ n ∈ (sortDesc (nets.map (fun n => (n, keyOf n)))).map Prod.fst,
              WFNet n = true := by
            intro n hm
            obtain ⟨p, hp, hfst⟩ := List.mem_map.1 hm
            obtain ⟨m, hm2, heq⟩ := List.mem_map.1 (mem_sortDesc hp)
            subst heq
            exact hfst ▸ hwf m hm2
          have htr : (JVal.jarr nets).truthy = true := by
            cases nets with
            | nil => exact absurd rfl hne
            | cons a l => rfl
          have h1 : find_polar_node home (.parsed (.jobj fs)) name =
              scanNetworks home name ((sortDesc (nets.map (fun n => (n, keyOf n)))).map Prod.fst) := by
            simp [find_polar_node, JVal.pyGet, hw, htr, JVal.pyIterate, decorate_wf _ hwf]
          rw [h1, scanNetworks_wf home name _ hsorted]
          simp only [specResolve, candidates, sortedNetworks, networksOf, getField, hw]
      all_goals simp [WFData, hw] at h
  all_goals simp [WFData] at h

/-- A POSIX join of a normal directory (nonempty, no trailing slash)
with a relative component inserts exactly one `/`. -/
theorem pyJoin2_normal (a b : String) (ha : a.data ≠ []) (ha2 : a.data.getLast? ≠ some '/')
    (hb : b.data.head? ≠ some '/') : pyJoin2 a b = a ++ "/" ++ b := by
  simp [pyJoin2, ha, ha2, hb]

/-- The node-directory join of `find_polar_node` in closed form, for a
normal network path and a node name without a leading slash. -/
theorem pyJoin_lnd (p nm : String) (hp : p.data ≠ [])
    (hp2 : p.data.getLast? ≠ some '/') (hn : nm.data.head? ≠ some '/') :
    pyJoin p ["volumes", "lnd", nm] = p ++ "/volumes/lnd/" ++ nm := by
  have h1 : pyJoin2 p "volumes" = p ++ "/volumes" := by
    rw [pyJoin2_normal p "volumes" hp hp2 (by decide), String.append_assoc]
    exact rfl
  have hne1 : (p ++ "/volumes").data ≠ [] := by
    simp [String.data_append]
  have hlast1 : (p ++ "/volumes").data.getLast? = some 's' := by
    simp [String.data_append, List.getLast?_append]
  have h2 : pyJoin2 (p ++ "/volumes") "lnd" = p ++ "/volumes/lnd" := by
    rw [pyJoin2_normal _ "lnd" hne1 (by simp [hlast1]) (by decide),
      String.append_assoc, String.append_assoc]
    exact rfl
  have hne2 : (p ++ "/volumes/lnd").data ≠ [] := by
    simp [String.data_append]
  have hlast2 : (p ++ "/volumes/lnd").data.getLast? = some 'd' := by
    simp [String.data_append, List.getLast?_append]
  have h3 : pyJoin2 (p ++ "/volumes/lnd") nm = p ++ "/volumes/lnd/" ++ nm := by
    rw [pyJoin2_normal _ nm hne2 (by simp [hlast2]) hn]
    have hfold : (p ++ "/volumes/lnd") ++ "/" = p ++ "/volumes/lnd/" := by
      rw [String.append_assoc]
      exact rfl
    rw [hfold]
  simp only [pyJoin, List.foldl_cons, List.foldl_nil, h1, h2, h3]

/-- `Nat.digitChar` never produces a slash. -/
theorem digitChar_ne_slash (n : Nat) : Nat.digitChar n ≠ '/' := by
  obtain h | h := Nat.lt_or_ge n 16
  · interval_cases n <;> decide
  · obtain ⟨m, rfl⟩ := Nat.exists_eq_add_of_le h
    unfold Nat.digitChar
    repeat rw [if_neg (by omega)]
    decide

/-- Every character `Nat.toDigitsCore` adds to the accumulator is a
digit character, hence not a slash. -/
theorem toDigitsCore_ne_slash (fuel : Nat) : ∀ (n : Nat) (ds : List Char),
    (∀ c ∈ ds, c ≠ '/') → ∀ c ∈ Nat.toDigitsCore 10 fuel n ds, c ≠ '/' := by
  induction fuel with
  | zero =>
    intro n ds hds c hc
    simp only [Nat.toDigitsCore] at hc
    exact hds c hc
  | succ fuel ih =>
    intro n ds hds c hc
    simp only [Nat.toDigitsCore] at hc
    split at hc
    · rcases List.mem_cons.1 hc with rfl | h
      · exact digitChar_ne_slash _
      · exact hds _ h
    · refine ih _ _ ?_ c hc
      intro c' hc'
      rcases List.mem_cons.1 hc' with rfl | h
      · exact digitChar_ne_slash _
      · exact hds _ h

/-- `Nat.toDigitsCore` never empties a nonempty accumulator. -/
theorem toDigitsCore_cons_ne_nil (fuel : Nat) : ∀ (n : Nat) (d : Char) (ds : List Char),
    Nat.toDigitsCore 10 fuel n (d :: ds) ≠ [] := by
  induction fuel with
  | zero =>
    intro n d ds
    simp [Nat.toDigitsCore]
  | succ fuel ih =>
    intro n d ds
    simp only [Nat.toDigitsCore]
    split
    · simp
    · exact ih _ _ _

/-- Decimal digit lists are nonempty. -/
theorem toDigits_ne_nil (n : Nat) : Nat.toDigits 10 n ≠ [] := by
  unfold Nat.toDigits
  simp only [Nat.toDigitsCore]
  split
  · simp
  · exact toDigitsCore_cons_ne_nil _ _ _ _

/-- The decimal rendering of an integer contains no slash. -/
theorem intToString_ne_slash (i : Int) : ∀ c ∈ (toString i).data, c ≠ '/' := by
  cases i with
  | ofNat m =>
    intro c hc
    exact toDigitsCore_ne_slash _ _ _ (by simp) c hc
  | negSucc m =>
    intro c hc
    have hd : (toString (Int.negSucc m)).data = '-' :: Nat.toDigits 10 (m + 1) := rfl
    rw [hd] at hc
    rcases List.mem_cons.1 hc with rfl | h
    · decide
    · exact toDigitsCore_ne_slash _ _ _ (by simp) c h

/-- The decimal rendering of an integer is nonempty. -/
theorem intToString_ne_nil (i : Int) : (toString i).data ≠ [] := by
  cases i with
  | ofNat m => exact toDigits_ne_nil m
  | negSucc m =>
    have hd : (toString (Int.negSucc m)).data = '-' :: Nat.toDigits 10 (m + 1) := rfl
    simp [hd]

/-- Expanding the defaulted network path against the home directory,
for every network id. -/
theorem expanduser_default (home : String) (i : Int) :
    expanduser home ("~/.polar/networks/" ++ toString i) =
      home ++ "/.polar/networks/" ++ toString i := by
  have hne : ("~/.polar/networks/" ++ toString i) ≠ "~" := by
    intro h
    have hd := congrArg String.data h
    rw [String.data_append] at hd
    have hl := congrArg List.length hd
    rw [List.length_append] at hl
    have e1 : ("~/.polar/networks/".data.length) = 18 := rfl
    have e2 : ("~".data.length) = 1 := rfl
    omega
  have htake : ("~/.polar/networks/" ++ toString i).data.take 2 = ['~', '/'] := by
    rw [String.data_append, List.take_append_of_le_length (by decide)]
    decide
  have hdrop : ("~/.polar/networks/" ++ toString i).data.drop 1 =
      "/.polar/networks/".data ++ (toString i).data := by
    rw [String.data_append, List.drop_append_of_le_length (by decide)]
    exact rfl
  rw [expanduser, if_neg hne, if_pos htake, hdrop, String.append_assoc]
  rfl

/-- The defaulted network path is a nonempty string, for every home
directory and id. -/
theorem defaultBase_ne_nil (home : String) (i : Int) :
    (home ++ "/.polar/networks/" ++ toString i).data ≠ [] := by
  simp [String.data_append, intToString_ne_nil i]

/-- The defaulted network path never ends in a slash (its last
character belongs to the id's decimal rendering). -/
theorem defaultBase_getLast_ne_slash (home : String) (i : Int) :
    (home ++ "/.polar/networks/" ++ toString i).data.getLast? ≠ some '/' := by
  rw [String.data_append, List.getLast?_append]
  cases hts : (toString i).data.getLast? with
  | none =>
    rw [List.getLast?_eq_none_iff] at hts
    exact absurd hts (intToString_ne_nil i)
  | some c =>
    have hc : c ≠ '/' := intToString_ne_slash i c (List.mem_of_mem_getLast? hts)
    simp [hts, hc]

/-- When the second network's key is `≤` the first's, the selection
order keeps the file order. -/
theorem sortedNetworks_pair (na nb : JVal)
    (hle : keyLe (keyOf nb) (keyOf na) = true) :
    sortedNetworks (descriptor [na, nb]) = [na, nb] := by
  show (sortDesc [(na, keyOf na), (nb, keyOf nb)]).map Prod.fst = [na, nb]
  simp [sortDesc, insertDesc, hle]

/-- When the first network's key is not `≤` the second's, the
selection order swaps the file order. -/
theorem sortedNetworks_pair_swap (na nb : JVal)
    (hgt : keyLe (keyOf na) (keyOf nb) = false) :
    sortedNetworks (descriptor [nb, na]) = [na, nb] := by
  show (sortDesc [(nb, keyOf nb), (na, keyOf na)]).map Prod.fst = [na, nb]
  simp [sortDesc, insertDesc, hgt]

/-- A two-network descriptor is scanned in file order when the second
network's key is `≤` the first's. -/
theorem find_pair_first (home nm : String) (na nb : JVal)
    (hwf : WFData (descriptor [na, nb]) = true)
    (hle : keyLe (keyOf nb) (keyOf na) = true) :
    find_polar_node home (.parsed (descriptor [na, nb])) nm =
      .ok ((((lightningOf na).map (fun nd => (na, nd)) ++
             (lightningOf nb).map (fun nd => (nb, nd))).find?
            (fun p => isMatch nm p.2)).map (fun p => buildResult home p.1 p.2)) := by
  rw [find_polar_node_wf home nm _ hwf]
  unfold specResolve candidates
  rw [sortedNetworks_pair na nb hle]
  simp [List.flatMap_cons, List.flatMap_nil]

/-- A two-network descriptor is scanned in swapped order when the
first network's key is not `≤` the second's. -/
theorem find_pair_swap (home nm : String) (na nb : JVal)
    (hwf : WFData (descriptor [nb, na]) = true)
    (hgt : keyLe (keyOf na) (keyOf nb) = false) :
    find_polar_node home (.parsed (descriptor [nb, na])) nm =
      .ok ((((lightningOf na).map (fun nd => (na, nd)) ++
             (lightningOf nb).map (fun nd => (nb, nd))).find?
            (fun p => isMatch nm p.2)).map (fun p => buildResult home p.1 p.2)) := by
  rw [find_polar_node_wf home nm _ hwf]
  unfold specResolve candidates
  rw [sortedNetworks_pair_swap na nb hgt]
  simp [List.flatMap_cons, List.flatMap_nil]

/-! ## Claims -/

/-- C1: Network selection order.  Networks whose status is exactly
`"Started"` are considered before all others, and within a status
group the higher numeric identifier is considered first.  With two
networks both containing a matching `bob` node: the `"Started"`
network's node is picked regardless of identifiers and of file order;
between two `"Started"` networks, and likewise between two
non-`"Started"` networks, the one with the higher identifier is
picked, again in either file order. -/
theorem C1_network_selection (home : String) (i1 i2 j1 j2 : Int) (s2 s3 : String)
    (hs2 : s2 ≠ "Started") (hs3 : s3 ≠ "Started") (hlt : j2 < j1) :
    find_polar_node home
        (.parsed (descriptor [netA i1 "Started", netB i2 s2])) "bob" = .ok (some resultA) ∧
    find_polar_node home
        (.parsed (descriptor [netB i2 s2, netA i1 "Started"])) "bob" = .ok (some resultA) ∧
    find_polar_node home
        (.parsed (descriptor [netA j1 "Started", netB j2 "Started"])) "bob" = .ok (some resultA) ∧
    find_polar_node home
        (.parsed (descriptor [netB j2 "Started", netA j1 "Started"])) "bob" = .ok (some resultA) ∧
    find_polar_node home
        (.parsed (descriptor [netA j1 s2, netB j2 s3])) "bob" = .ok (some resultA) ∧
    find_polar_node home
        (.parsed (descriptor [netB j2 s3, netA j1 s2])) "bob" = .ok (some resultA) := by
  have kA1 : keyOf (netA i1 "Started") = (1, i1) := rfl
  have kAj : keyOf (netA j1 "Started") = (1, j1) := rfl
  have kBj : keyOf (netB j2 "Started") = (1, j2) := rfl
  have kB2 : keyOf (netB i2 s2) = (0, i2) := by
    simp [keyOf, netB, net1, lndBob, node1, getField, JVal.lookupLast, hs2]
  have kAs : keyOf (netA j1 s2) = (0, j1) := by
    simp [keyOf, netA, net1, lndBob, node1, getField, JVal.lookupLast, hs2]
  have kBs : keyOf (netB j2 s3) = (0, j2) := by
    simp [keyOf, netB, net1, lndBob, node1, getField, JVal.lookupLast, hs3]
  refine ⟨?_, ?_, ?_, ?_, ?_, ?_⟩
  · rw [find_pair_first home "bob" _ _ (by rfl) (by simp [kA1, kB2, keyLe])]
    rfl
  · rw [find_pair_swap home "bob" _ _ (by rfl) (by simp [kA1, kB2, keyLe])]
    rfl
  · rw [find_pair_first home "bob" _ _ (by rfl) (by simp [kAj, kBj, keyLe, hlt.le])]
    rfl
  · rw [find_pair_swap home "bob" _ _ (by rfl) (by simp [kAj, kBj, keyLe, hlt.not_le])]
    rfl
  · rw [find_pair_first home "bob" _ _ (by rfl) (by simp [kAs, kBs, keyLe, hlt.le])]
    rfl
  · rw [find_pair_swap home "bob" _ _ (by rfl) (by simp [kAs, kBs, keyLe, hlt.not_le])]
    rfl

/-- Witness instantiation at concrete inputs: the `"Started"` network
wins over a `"Stopped"` network with a higher id, and the `"Started"`
network with id 5 wins over the one with id 2. -/
theorem C1_witness :
    find_polar_node "/h" (.parsed (descriptor [netA 1 "Started", netB 9 "Stopped"])) "bob" =
      .ok (some resultA) ∧
    find_polar_node "/h" (.parsed (descriptor [netB 2 "Started", netA 5 "Started"])) "bob" =
      .ok (some resultA) :=
  ⟨(C1_network_selection "/h" 1 9 5 2 "Stopped" "Starting" (by decide) (by decide) (by decide)).1,
   (C1_network_selection "/h" 1 9 5 2 "Stopped" "Starting" (by decide) (by decide)
      (by decide)).2.2.2.1⟩

/-- C2: Environment overrides are honored only as a pair.  When both
override variables are set non-empty, `auto_detect` returns them
verbatim (directory `~`-expanded) for every state of the descriptor
file — the file is never consulted.  When only one is set, the result
is the same as with no overrides at all: resolution falls through to
descriptor-based detection. -/
theorem C2_env_override_pair (home d h : String) (hd : d ≠ "") (hh : h ≠ "")
    (file : DescriptorFile) (name : String) :
    auto_detect home (some d) (some h) file name =
      .ok (some (expanduser home d), some h) ∧
    auto_detect home (some d) none file name = auto_detect home none none file name ∧
    auto_detect home none (some h) file name = auto_detect home none none file name := by
  refine ⟨?_, ?_, ?_⟩
  · simp [auto_detect, envTruthy, hd, hh]
  · simp [auto_detect, envTruthy]
  · simp [auto_detect, envTruthy]

/-- Witness instantiation: the override pair is returned verbatim
(directory expanded) even though the descriptor file is a state whose
processing would raise. -/
theorem C2_witness :
    auto_detect "/h" (some "~/lnd") (some "https://x:1") (.parsed (.jarr [])) "bob" =
      .ok (some "/h/lnd", some "https://x:1") :=
  (C2_env_override_pair "/h" "~/lnd" "https://x:1" (by decide) (by decide)
    (.parsed (.jarr [])) "bob").1

/-- C3: Detection failure yields the absent pair.  With a missing,
unreadable, or unparsable descriptor file, or a parsed descriptor
object with zero networks (`networks` key absent or the empty list),
`find_polar_node` returns `None`; without a full environment override,
`auto_detect` then returns `(None, None)`. -/
theorem C3_nothing_found (home name : String) (e1 e2 : Option String)
    (fs : List (String × JVal))
    (henv : (envTruthy e1 && envTruthy e2) = false)
    (hnets : JVal.lookupLast fs "networks" = none ∨
             JVal.lookupLast fs "networks" = some (.jarr [])) :
    find_polar_node home .absent name = .ok none ∧
    find_polar_node home .unreadable name = .ok none ∧
    find_polar_node home .unparsable name = .ok none ∧
    find_polar_node home (.parsed (.jobj fs)) name = .ok none ∧
    auto_detect home e1 e2 .absent name = .ok (none, none) ∧
    auto_detect home e1 e2 .unreadable name = .ok (none, none) ∧
    auto_detect home e1 e2 .unparsable name = .ok (none, none) ∧
    auto_detect home e1 e2 (.parsed (.jobj fs)) name = .ok (none, none) := by
  have hfind : find_polar_node home (.parsed (.jobj fs)) name = .ok none := by
    rcases hnets with h | h <;> simp [find_polar_node, JVal.pyGet, h, JVal.truthy]
  refine ⟨rfl, rfl, rfl, hfind, ?_, ?_, ?_, ?_⟩
  · simp [auto_detect, henv, find_polar_node]
  · simp [auto_detect, henv, find_polar_node]
  · simp [auto_detect, henv, find_polar_node]
  · simp [auto_detect, henv, hfind]

/-- Witness instantiation: a missing file and a descriptor with an
empty network list both yield nothing. -/
theorem C3_witness :
    find_polar_node "/h" DescriptorFile.absent "bob" = .ok none ∧
    auto_detect "/h" none none (.parsed (.jobj [("networks", .jarr [])])) "bob" =
      .ok (none, none) :=
  ⟨(C3_nothing_found "/h" "bob" none none [("networks", .jarr [])] rfl (Or.inr rfl)).1,
   (C3_nothing_found "/h" "bob" none none [("networks", .jarr [])] rfl
      (Or.inr rfl)).2.2.2.2.2.2.2⟩

/-- C4: Single-network resolution.  For every descriptor with exactly
one network holding exactly one matching LND node — quantified over
home directory, network id, status, display name, node name, path and
port — resolution returns the directory `<path>/volumes/lnd/<name>`
and the URL `https://127.0.0.1:<rest-port>`, in all four
present/absent combinations: when the descriptor omits the path it
defaults to `~/.polar/networks/<id>` expanded against the user's home,
and when the node has no `ports.rest` entry the port defaults
to 8082. -/
theorem C4_single_network (home p nm st netname : String) (i q : Int)
    (hp : p.data ≠ []) (hp2 : p.data.getLast? ≠ some '/')
    (hn : nm.data.head? ≠ some '/') :
    find_polar_node home
        (.parsed (descriptor [net1 i st netname (some p) [node1 "LND" nm (some q)]])) nm =
      .ok (some { name := nm, lnd_dir := p ++ "/volumes/lnd/" ++ nm,
                  rest_host := "https://127.0.0.1:" ++ toString q,
                  rest_port := .jnum q, network_name := .jstr netname }) ∧
    find_polar_node home
        (.parsed (descriptor [net1 i st netname (some p) [node1 "LND" nm none]])) nm =
      .ok (some { name := nm, lnd_dir := p ++ "/volumes/lnd/" ++ nm,
                  rest_host := "https://127.0.0.1:8082",
                  rest_port := .jnum 8082, network_name := .jstr netname }) ∧
    find_polar_node home
        (.parsed (descriptor [net1 i st netname none [node1 "LND" nm (some q)]])) nm =
      .ok (some { name := nm,
                  lnd_dir := home ++ "/.polar/networks/" ++ toString i ++ "/volumes/lnd/" ++ nm,
                  rest_host := "https://127.0.0.1:" ++ toString q,
                  rest_port := .jnum q, network_name := .jstr netname }) ∧
    find_polar_node home
        (.parsed (descriptor [net1 i st netname none [node1 "LND" nm none]])) nm =
      .ok (some { name := nm,
                  lnd_dir := home ++ "/.polar/networks/" ++ toString i ++ "/volumes/lnd/" ++ nm,
                  rest_host := "https://127.0.0.1:8082",
                  rest_port := .jnum 8082, network_name := .jstr netname }) := by
  have hp' : p ≠ "" := fun e => hp (by simp [e])
  refine ⟨?_, ?_, ?_, ?_⟩
  · rw [find_polar_node_wf home nm _ (by rfl)]
    unfold specResolve candidates
    have hsort : sortedNetworks
        (descriptor [net1 i st netname (some p) [node1 "LND" nm (some q)]]) =
        [net1 i st netname (some p) [node1 "LND" nm (some q)]] := rfl
    rw [hsort]
    simp [List.flatMap_cons, List.flatMap_nil, lightningOf, getField, JVal.lookupLast,
      net1, node1, isMatch, strOf, (show strUpper "LND" = "LND" from rfl), buildResult,
      JVal.truthy, hp', JVal.pyStr, JVal.pyRepr, pyJoin_lnd p nm hp hp2 hn]
  · rw [find_polar_node_wf home nm _ (by rfl)]
    unfold specResolve candidates
    have hsort : sortedNetworks
        (descriptor [net1 i st netname (some p) [node1 "LND" nm none]]) =
        [net1 i st netname (some p) [node1 "LND" nm none]] := rfl
    rw [hsort]
    simp [List.flatMap_cons, List.flatMap_nil, lightningOf, getField, JVal.lookupLast,
      net1, node1, isMatch, strOf, (show strUpper "LND" = "LND" from rfl), buildResult,
      JVal.truthy, hp', JVal.pyStr, JVal.pyRepr,
      (show "https://127.0.0.1:" ++ toString (8082 : Int) = "https://127.0.0.1:8082" from rfl),
      pyJoin_lnd p nm hp hp2 hn]
  · rw [find_polar_node_wf home nm _ (by rfl)]
    unfold specResolve candidates
    have hsort : sortedNetworks
        (descriptor [net1 i st netname none [node1 "LND" nm (some q)]]) =
        [net1 i st netname none [node1 "LND" nm (some q)]] := rfl
    rw [hsort]
    simp [List.flatMap_cons, List.flatMap_nil, lightningOf, getField, JVal.lookupLast,
      net1, node1, isMatch, strOf, (show strUpper "LND" = "LND" from rfl), buildResult,
      JVal.truthy, JVal.pyStr, JVal.pyRepr, expanduser_default home i,
      pyJoin_lnd (home ++ "/.polar/networks/" ++ toString i) nm
        (defaultBase_ne_nil home i) (defaultBase_getLast_ne_slash home i) hn]
  · rw [find_polar_node_wf home nm _ (by rfl)]
    unfold specResolve candidates
    have hsort : sortedNetworks
        (descriptor [net1 i st netname none [node1 "LND" nm none]]) =
        [net1 i st netname none [node1 "LND" nm none]] := rfl
    rw [hsort]
    simp [List.flatMap_cons, List.flatMap_nil, lightningOf, getField, JVal.lookupLast,
      net1, node1, isMatch, strOf, (show strUpper "LND" = "LND" from rfl), buildResult,
      JVal.truthy, JVal.pyStr, JVal.pyRepr, expanduser_default home i,
      (show "https://127.0.0.1:" ++ toString (8082 : Int) = "https://127.0.0.1:8082" from rfl),
      pyJoin_lnd (home ++ "/.polar/networks/" ++ toString i) nm
        (defaultBase_ne_nil home i) (defaultBase_getLast_ne_slash home i) hn]

/-- Witness instantiation at id 42: all four combinations of explicit
and defaulted path and port. -/
theorem C4_witness :
    find_polar_node "/h"
        (.parsed (descriptor
          [net1 42 "Stopped" "net" (some "/polar/n1") [node1 "LND" "alice" (some 8099)]]))
        "alice" =
      .ok (some { name := "alice", lnd_dir := "/polar/n1/volumes/lnd/alice",
                  rest_host := "https://127.0.0.1:8099", rest_port := .jnum 8099,
                  network_name := .jstr "net" }) ∧
    find_polar_node "/h"
        (.parsed (descriptor
          [net1 42 "Stopped" "net" (some "/polar/n1") [node1 "LND" "alice" none]]))
        "alice" =
      .ok (some { name := "alice", lnd_dir := "/polar/n1/volumes/lnd/alice",
                  rest_host := "https://127.0.0.1:8082", rest_port := .jnum 8082,
                  network_name := .jstr "net" }) ∧
    find_polar_node "/h"
        (.parsed (descriptor [net1 42 "Stopped" "net" none [node1 "LND" "alice" (some 8099)]]))
        "alice" =
      .ok (some { name := "alice", lnd_dir := "/h/.polar/networks/42/volumes/lnd/alice",
                  rest_host := "https://127.0.0.1:8099", rest_port := .jnum 8099,
                  network_name := .jstr "net" }) ∧
    find_polar_node "/h"
        (.parsed (descriptor [net1 42 "Stopped" "net" none [node1 "LND" "alice" none]]))
        "alice" =
      .ok (some { name := "alice", lnd_dir := "/h/.polar/networks/42/volumes/lnd/alice",
                  rest_host := "https://127.0.0.1:8082", rest_port := .jnum 8082,
                  network_name := .jstr "net" }) :=
  ⟨(C4_single_network "/h" "/polar/n1" "alice" "Stopped" "net" 42 8099
      (by decide) (by decide) (by decide)).1,
   (C4_single_network "/h" "/polar/n1" "alice" "Stopped" "net" 42 8099
      (by decide) (by decide) (by decide)).2.1,
   (C4_single_network "/h" "/polar/n1" "alice" "Stopped" "net" 42 8099
      (by decide) (by decide) (by decide)).2.2.1,
   (C4_single_network "/h" "/polar/n1" "alice" "Stopped" "net" 42 8099
      (by decide) (by decide) (by decide)).2.2.2⟩

/-- C5: Matching invariant.  On a schema-conforming descriptor,
`find_polar_node` returns exactly the first candidate — networks in
selection order, node entries in file order — whose implementation
equals `"LND"` case-insensitively and whose name equals the requested
name case-insensitively (`List.find?` over the ordered candidate
list), mapped to the result built for it. -/
theorem C5_matching_invariant (home name : String) (d : JVal) (h : WFData d = true) :
    find_polar_node home (.parsed d) name =
      .ok (((candidates d).find? (fun p => isMatch name p.2)).map
           (fun p => buildResult home p.1 p.2)) := by
  rw [find_polar_node_wf home name d h]
  rfl

/-- Witness instantiation on a two-network descriptor. -/
theorem C5_witness :
    WFData (descriptor [netA 1 "Started", netB 2 "Stopped"]) = true ∧
    find_polar_node "/h" (.parsed (descriptor [netA 1 "Started", netB 2 "Stopped"])) "bob" =
      .ok (((candidates (descriptor [netA 1 "Started", netB 2 "Stopped"])).find?
            (fun p => isMatch "bob" p.2)).map (fun p => buildResult "/h" p.1 p.2)) :=
  ⟨rfl, C5_matching_invariant "/h" "bob" _ rfl⟩

/-- C6 counterexample: resolution is not total over arbitrary
well-formed JSON.  A descriptor file whose content parses as the
top-level array `[]` makes `data.get("networks", [])` raise
`AttributeError`, which propagates out of `auto_detect` instead of
degrading to `(None, None)`. -/
theorem C6_counterexample :
    auto_detect "/home/user" none none (.parsed (.jarr [])) "bob" = .error .attrError := rfl

/-- C6 (amended): resolution never raises and returns a result pair
for every missing, unreadable, or unparsable descriptor file and for
every parsed descriptor conforming to the documented schema; a
well-formed JSON value outside the schema (such as a top-level array)
can raise instead. -/
theorem C6_total_on_schema (home name : String) (e1 e2 : Option String)
    (file : DescriptorFile) (h : fileWF file = true) :
    ∃ p, auto_detect home e1 e2 file name = .ok p := by
  cases henv : envTruthy e1 && envTruthy e2
  · cases file with
    | absent => exact ⟨(none, none), by simp [auto_detect, henv, find_polar_node]⟩
    | unreadable => exact ⟨(none, none), by simp [auto_detect, henv, find_polar_node]⟩
    | unparsable => exact ⟨(none, none), by simp [auto_detect, henv, find_polar_node]⟩
    | parsed d =>
      have hw : WFData d = true := by simpa [fileWF] using h
      have hf := find_polar_node_wf home name d hw
      cases hr : specResolve home d name with
      | some r =>
        exact ⟨(some r.lnd_dir, some r.rest_host), by simp [auto_detect, henv, hf, hr]⟩
      | none => exact ⟨(none, none), by simp [auto_detect, henv, hf, hr]⟩
  · exact ⟨(some (expanduser home (e1.getD "")), e2), by simp [auto_detect, henv]⟩

/-- Witness instantiation on a schema-conforming descriptor. -/
theorem C6_witness :
    fileWF (.parsed (descriptor [netA 1 "Started"])) = true ∧
    ∃ p, auto_detect "/h" none none (.parsed (descriptor [netA 1 "Started"])) "bob" = .ok p :=
  ⟨rfl, C6_total_on_schema "/h" "bob" none none _ rfl⟩

/-- C7: Missing macaroon.  When the token file
`data/chain/bitcoin/regtest/admin.macaroon` is absent under the
configured directory, construction succeeds with the token unset, and
every subsequent request — for every transport, i.e. before any HTTP
traffic — fails with a `ConnectionError` whose message names the
configured directory. -/
theorem C7_missing_macaroon (readFile : String → Option (List Nat))
    (dd dh : String) (ld rh : Option String)
    (h : readFile (macaroonPath (LNDClient.init readFile dd dh ld rh).lnd_dir) = none) :
    (LNDClient.init readFile dd dh ld rh).macaroon = none ∧
    ∀ (http : HttpTransport) (method endpoint : String) (data : Option JVal),
      (LNDClient.init readFile dd dh ld rh).request http method endpoint data =
        .error (.connectionError
          ("LND not found at " ++ (LNDClient.init readFile dd dh ld rh).lnd_dir ++ ". " ++
           "Make sure your LND node is set up. " ++
           "If using Polar, make sure it's running with a node named 'bob'.")) := by
  simp only [LNDClient.init] at h
  have hmac : (LNDClient.init readFile dd dh ld rh).macaroon = none := by
    simp only [LNDClient.init]
    rw [h]
    rfl
  refine ⟨hmac, fun http method endpoint data => ?_⟩
  simp [LNDClient.request, hmac, envTruthy]

/-- Witness instantiation: an empty filesystem, a transport that would
answer 200 — the request still fails with the connection error naming
the directory. -/
theorem C7_witness :
    (LNDClient.init (fun _ => none) "/dd" "https://hh" none none).macaroon = none ∧
    (LNDClient.init (fun _ => none) "/dd" "https://hh" none none).request
        (fun _ _ _ _ => ⟨200, "OK", "ok-body", some (.jobj [])⟩) "GET" "/v1/getinfo" none =
      .error (.connectionError
        "LND not found at /dd. Make sure your LND node is set up. If using Polar, make sure it's running with a node named 'bob'.") := by
  have h := C7_missing_macaroon (fun _ => none) "/dd" "https://hh" none none rfl
  exact ⟨h.1, h.2 _ "GET" "/v1/getinfo" none⟩

/-- C8: Non-success HTTP status.  With a loaded macaroon, a supported
method, and a transport answering a status in 400..599, the request
raises an `HTTPError` carrying the status code and the response body,
and the error's message begins with the decimal status code. -/
theorem C8_http_error (c : LNDClient) (m : String) (hm : c.macaroon = some m) (hne : m ≠ "")
    (resp : HttpResp) (h4 : 400 ≤ resp.status) (h6 : resp.status < 600)
    (method endpoint : String) (data : Option JVal)
    (hmeth : method = "GET" ∨ method = "POST" ∨ method = "DELETE") :
    c.request (fun _ _ _ _ => resp) method endpoint data =
      .error (.httpError resp.status resp.reason (c.rest_host ++ endpoint) resp.body) ∧
    ∃ t, (ReqError.httpError resp.status resp.reason (c.rest_host ++ endpoint) resp.body).message =
      toString resp.status ++ t := by
  constructor
  · rcases hmeth with rfl | rfl | rfl <;>
      simp [LNDClient.request, hm, envTruthy, hne, raise_for_status, h4, h6]
  · by_cases h5 : resp.status < 500
    · exact ⟨" Client Error: " ++ (resp.reason ++ (" for url: " ++ (c.rest_host ++ endpoint))),
        by simp [ReqError.message, h5]⟩
    · exact ⟨" Server Error: " ++ (resp.reason ++ (" for url: " ++ (c.rest_host ++ endpoint))),
        by simp [ReqError.message, h5]⟩

/-- Witness instantiation: a 503 response raises an error whose
message contains `503`. -/
theorem C8_witness :
    LNDClient.request ⟨"/d", "https://h", some "ab", "/d/tls.cert"⟩
        (fun _ _ _ _ => ⟨503, "Service Unavailable", "oops", none⟩) "GET" "/v1/getinfo" none =
      .error (.httpError 503 "Service Unavailable" "https://h/v1/getinfo" "oops") ∧
    (ReqError.httpError 503 "Service Unavailable" "https://h/v1/getinfo" "oops").message =
      "503 Server Error: Service Unavailable for url: https://h/v1/getinfo" := by
  have h := C8_http_error ⟨"/d", "https://h", some "ab", "/d/tls.cert"⟩ "ab" rfl (by decide)
    ⟨503, "Service Unavailable", "oops", none⟩ (by decide) (by decide) "GET" "/v1/getinfo" none
    (Or.inl rfl)
  exact ⟨h.1, rfl⟩

/-- C9: An override environment variable set to the empty string is
treated as unset: if either variable is the empty string, `auto_detect`
behaves exactly as with no overrides at all and falls through to
descriptor-based detection, never returning the empty value verbatim. -/
theorem C9_empty_override (home name : String) (e : Option String) (file : DescriptorFile) :
    auto_detect home (some "") e file name = auto_detect home none none file name ∧
    auto_detect home e (some "") file name = auto_detect home none none file name := by
  constructor
  · simp [auto_detect, envTruthy]
  · simp [auto_detect, envTruthy]

/-- C10: Name-case preservation.  When the requested name differs only
in letter case from the descriptor's recorded name, the match still
succeeds and the returned name and directory use the descriptor's
recorded spelling. -/
theorem C10_case_preservation (home req nm : String)
    (hcase : strLower nm = strLower req) (hn : nm.data.head? ≠ some '/') :
    find_polar_node home
        (.parsed (descriptor [net1 3 "Started" "net3" (some "/p") [node1 "LND" nm (some 8085)]]))
        req =
      .ok (some { name := nm, lnd_dir := "/p/volumes/lnd/" ++ nm,
                  rest_host := "https://127.0.0.1:8085", rest_port := .jnum 8085,
                  network_name := .jstr "net3" }) := by
  rw [find_polar_node_wf home req _ (by rfl)]
  unfold specResolve candidates
  have hsort : sortedNetworks
      (descriptor [net1 3 "Started" "net3" (some "/p") [node1 "LND" nm (some 8085)]]) =
      [net1 3 "Started" "net3" (some "/p") [node1 "LND" nm (some 8085)]] := rfl
  rw [hsort]
  simp [List.flatMap_cons, List.flatMap_nil, lightningOf, getField, JVal.lookupLast,
    net1, node1, isMatch, strOf, (show strUpper "LND" = "LND" from rfl), hcase, buildResult,
    JVal.truthy, JVal.pyStr, JVal.pyRepr,
    (show "https://127.0.0.1:" ++ toString (8085 : Int) = "https://127.0.0.1:8085" from rfl),
    pyJoin_lnd "/p" nm (by decide) (by decide) hn]

/-- Witness instantiation: requesting `BOB` finds the node recorded as
`Bob` and the directory ends in `Bob`. -/
theorem C10_witness :
    find_polar_node "/h"
        (.parsed (descriptor
          [net1 3 "Started" "net3" (some "/p") [node1 "LND" "Bob" (some 8085)]]))
        "BOB" =
      .ok (some { name := "Bob", lnd_dir := "/p/volumes/lnd/Bob",
                  rest_host := "https://127.0.0.1:8085", rest_port := .jnum 8085,
                  network_name := .jstr "net3" }) :=
  C10_case_preservation "/h" "BOB" "Bob" (by decide) (by decide)

end Webstore
